import Mathlib

/-!
Shallow embedding of the PPTX export layout engine of this repository.

The repository contains two variants of the engine:
* the unnamed variant (`src/unnamed/part_001`), embedded in namespace `P1`;
* the variant in `src/src/app/api/presentation/download/route.ts`
  (its Plate-based second half), embedded in namespace `RT`.

JavaScript numbers are modelled as `ℚ` (all constants involved are decimal
literals), strings as `String`, optional / possibly-`undefined` fields as
`Option`, and JS truthiness of a string-valued field as "present and
non-empty".  Drawing side effects (`slide.addText`, `slide.addImage`,
`slide.addShape`) are modelled by returning the list of emitted drawing
commands alongside the new cursor.
-/

/-- JS whitespace, restricted to the characters that occur in practice
(space, tab, line feed, carriage return). -/
def isJSWhitespace (c : Char) : Bool :=
  c = ' ' ∨ c = '\t' ∨ c = '\n' ∨ c = '\r'

/-- Executable model of JS `String.prototype.trim`: drop leading and
trailing whitespace. -/
def jsTrim (s : String) : String :=
  ⟨((s.data.dropWhile isJSWhitespace).reverse.dropWhile isJSWhitespace).reverse⟩

/-- JS truthiness of an optional string field: present and non-empty. -/
def strTruthy : Option String → Bool
  | some s => s ≠ ""
  | none => false

/-- A Plate content node (`PlateNode` / `TDescendant`): a `type` tag, an
optional leaf `text`, inline style flags, an optional `url` (images), the
stringified `chartType` / `visualizationType` fields read by the route
variant's placeholder branches, and the ordered children. -/
inductive PNode : Type where
  | mk (ty : String) (text : Option String)
      (bold italic underline strikethrough : Bool)
      (url : Option String) (chartType visualizationType : String)
      (children : List PNode)

def PNode.ty : PNode → String
  | .mk t _ _ _ _ _ _ _ _ _ => t

def PNode.text : PNode → Option String
  | .mk _ t _ _ _ _ _ _ _ _ => t

def PNode.bold : PNode → Bool
  | .mk _ _ b _ _ _ _ _ _ _ => b

def PNode.italic : PNode → Bool
  | .mk _ _ _ i _ _ _ _ _ _ => i

def PNode.underline : PNode → Bool
  | .mk _ _ _ _ u _ _ _ _ _ => u

def PNode.strikethrough : PNode → Bool
  | .mk _ _ _ _ _ s _ _ _ _ => s

def PNode.url : PNode → Option String
  | .mk _ _ _ _ _ _ u _ _ _ => u

def PNode.chartType : PNode → String
  | .mk _ _ _ _ _ _ _ c _ _ => c

def PNode.visualizationType : PNode → String
  | .mk _ _ _ _ _ _ _ _ v _ => v

def PNode.children : PNode → List PNode
  | .mk _ _ _ _ _ _ _ _ _ c => c

theorem PNode.sizeOf_children_lt (n : PNode) : sizeOf n.children < sizeOf n := by
  cases n with
  | mk ty text b i u s url ct vt ch =>
    simp [PNode.children]

theorem PNode.sizeOf_children_lt_cons (c : PNode) (cs : List PNode) :
    sizeOf c.children < sizeOf (c :: cs) := by
  have h := PNode.sizeOf_children_lt c
  simp
  omega

/-- `PptxGenJS.TextPropsOptions`, restricted to the fields this code reads
or writes. -/
structure TextOpts where
  color : String := ""
  fontFace : String := ""
  fontSize : Option ℚ := none
  bold : Bool := false
  italic : Bool := false
  underline : Bool := false
  strike : Bool := false
  valign : String := ""
  lineSpacing : Option ℚ := none
  bulletStyle : Bool := false
  alignOpt : Option String := none
  autoFitOpt : Bool := false
deriving DecidableEq

/-- One styled run (`PptxGenJS.TextProps`): a text fragment plus options. -/
structure TextRun where
  text : String
  options : TextOpts
deriving DecidableEq

/-- A `PptxGenJS.Coord`: a plain number (inches) or a percentage string. -/
inductive Coord : Type where
  | num (q : ℚ)
  | pct (q : ℚ)
deriving DecidableEq

/-- Geometry / box options of an `addText` call. -/
structure BoxOpts where
  x : Coord
  y : Coord
  w : Coord
  h : Coord
  autoFit : Bool := false
  align : Option String := none
  bulletFlag : Bool := false
deriving DecidableEq

/-- A drawing command emitted into a slide. -/
inductive DrawCmd : Type where
  | text (runs : List TextRun) (box : BoxOpts) (style : TextOpts)
  | textStr (s : String) (box : BoxOpts)
  | image (path : String) (x y w h : Coord) (sizing : Option (String × Coord × Coord))
  | shape (x y w h : Coord) (fillColor : String) (transparency : ℚ)
deriving DecidableEq

/-- The light color sub-palette of `ThemeProperties.colors` (the only one
this code reads). -/
structure LightColors where
  background : String
  text : String
  heading : String
  muted : String
deriving DecidableEq

structure ThemeFonts where
  heading : String
  body : String
deriving DecidableEq

structure ThemeProperties where
  colorsLight : LightColors
  fonts : ThemeFonts
deriving DecidableEq

structure Theme where
  name : String
  properties : ThemeProperties
deriving DecidableEq

/-- A rectangular content area, as used numerically by `processNode`. -/
structure ContentArea where
  x : ℚ
  y : ℚ
  w : ℚ
  h : ℚ
deriving DecidableEq

/-- JS `String.prototype.replace("#", "")`: remove the first `#`. -/
def removeFirstHash : List Char → List Char
  | [] => []
  | c :: cs => if c = '#' then cs else c :: removeFirstHash cs

def stripHash (s : String) : String :=
  ⟨removeFirstHash s.data⟩

/-- The flag-accumulation step of the extractors: copy the current options
and switch on any style flag the child carries (flags only turn on). -/
def updateFlags (o : TextOpts) (c : PNode) : TextOpts :=
  let o1 := if c.bold then { o with bold := true } else o
  let o2 := if c.italic then { o1 with italic := true } else o1
  let o3 := if c.underline then { o2 with underline := true } else o2
  if c.strikethrough then { o3 with strike := true } else o3

namespace P1

/-- The inner `traverse` of `getRichTextFromNode` in `src/unnamed/part_001`:
a child with truthy `text` contributes a run only when `text.trim()` is
non-empty; otherwise its children are traversed with the accumulated
options. -/
def traverse (o : TextOpts) : List PNode → List TextRun
  | [] => []
  | c :: cs =>
    let o2 := updateFlags o c
    (if strTruthy c.text then
      (if jsTrim (c.text.getD "") ≠ "" then [⟨c.text.getD "", o2⟩] else [])
    else traverse o2 c.children)
    ++ traverse o cs
termination_by l => sizeOf l
decreasing_by
  · exact PNode.sizeOf_children_lt_cons c cs
  · simp

/-- `getRichTextFromNode` of `src/unnamed/part_001`. -/
def getRichTextFromNode (node : PNode) (baseOptions : TextOpts) : List TextRun :=
  traverse baseOptions node.children

/-- `getTextNodeStyle` of `src/unnamed/part_001`. -/
def getTextNodeStyle (node : PNode) (theme : Theme) : TextOpts :=
  let colors := theme.properties.colorsLight
  let fonts := theme.properties.fonts
  let baseOptions : TextOpts :=
    { color := stripHash colors.text
      fontFace := fonts.body
      fontSize := some 16
      valign := "top" }
  if node.ty = "h1" then
    { baseOptions with
      color := stripHash colors.heading
      fontFace := fonts.heading
      fontSize := some 36
      bold := true }
  else if node.ty = "h2" then
    { baseOptions with
      color := stripHash colors.heading
      fontFace := fonts.heading
      fontSize := some 28
      bold := true }
  else if node.ty = "h3" then
    { baseOptions with
      color := stripHash colors.heading
      fontFace := fonts.heading
      fontSize := some 24
      bold := true }
  else if node.ty = "h4" then
    { baseOptions with
      color := stripHash colors.heading
      fontFace := fonts.heading
      fontSize := some 20
      bold := true }
  else if node.ty = "p" then
    { baseOptions with fontSize := some 18, lineSpacing := some 28 }
  else if node.ty = "bullet" then
    { baseOptions with fontSize := some 16, bulletStyle := true }
  else baseOptions

/-- The empty `TextPropsOptions` object. -/
def emptyOpts : TextOpts := {}

mutual

/-- `processNode` of `src/unnamed/part_001` (lines 129–208): returns the new
cursor and the drawing commands it emitted. -/
def processNode (theme : Theme) (area : ContentArea) (y : ℚ) (node : PNode) :
    ℚ × List DrawCmd :=
  let style := getTextNodeStyle node theme
  let richText := getRichTextFromNode node style
  if richText.any (fun t => !(jsTrim t.text == "")) = false then (y, [])
  else
    let textContent := String.join (richText.map (·.text))
    let lineCount : ℕ := textContent.data.count '\n' + 1
    let estimatedHeight : ℚ := ((lineCount : ℚ) * (style.fontSize.getD 16) * (3 / 2)) / 72
    let elemHeight : ℚ := max estimatedHeight (1 / 2)
    if node.ty = "h1" ∨ node.ty = "h2" ∨ node.ty = "h3" ∨ node.ty = "h4" ∨ node.ty = "p" then
      (y + elemHeight + 1 / 10,
        [DrawCmd.text richText
          { x := .num area.x
            y := .num y
            w := .num area.w
            h := .num elemHeight
            autoFit := true
            align := some (if node.ty.startsWith "h" then "center" else "left") }
          emptyOpts])
    else if node.ty = "img" then
      if strTruthy node.url then
        (y + 11 / 5,
          [DrawCmd.image (node.url.getD "") (.num area.x) (.num y) (.num area.w) (.num 2)
            (some ("contain", .num area.w, .num 2))])
      else (y, [])
    else if node.ty = "column" then
      let k := (node.children.filter (fun c => c.ty = "column_item")).length
      if k = 0 then (y, [])
      else
        let colW := (area.w - ((k : ℚ) - 1) * (1 / 5)) / (k : ℚ)
        let r := processColumns theme area colW y 0 node.children
        (r.1 + 1 / 5, r.2)
    else if node.ty = "bullets" then
      processSeq theme area y node.children
    else if node.ty = "bullet" then
      (y + elemHeight + 1 / 20,
        [DrawCmd.text richText
          { x := .num (area.x + 1 / 4)
            y := .num y
            w := .num (area.w - 1 / 4)
            h := .num elemHeight
            autoFit := true
            bulletFlag := true }
          emptyOpts])
    else (y, [])
termination_by sizeOf node
decreasing_by
  all_goals exact PNode.sizeOf_children_lt node

/-- Sequential layout of a node list threading the cursor (the `bullets`
branch and the per-column `forEach` of `src/unnamed/part_001`). -/
def processSeq (theme : Theme) (area : ContentArea) (y : ℚ) :
    List PNode → ℚ × List DrawCmd
  | [] => (y, [])
  | n :: ns =>
    let r1 := processNode theme area y n
    let r2 := processSeq theme area r1.1 ns
    (r2.1, r1.2 ++ r2.2)
termination_by l => sizeOf l
decreasing_by
  all_goals simp
  all_goals omega

/-- The `columns.forEach` of the `column` branch: each `column_item` child is
laid out in its own sub-area of width `colW` with an independent cursor
starting at `y`; the result is the running maximum of the column cursors
(initially `y`).  `idx` is the index within the filtered column list. -/
def processColumns (theme : Theme) (area : ContentArea) (colW y : ℚ) (idx : ℕ) :
    List PNode → ℚ × List DrawCmd
  | [] => (y, [])
  | c :: cs =>
    if c.ty = "column_item" then
      let colArea : ContentArea :=
        { area with x := area.x + (idx : ℚ) * (colW + 1 / 5), w := colW }
      let rc := processSeq theme colArea y c.children
      let rr := processColumns theme area colW y (idx + 1) cs
      (max rc.1 rr.1, rc.2 ++ rr.2)
    else processColumns theme area colW y idx cs
termination_by l => sizeOf l
decreasing_by
  all_goals first
    | exact PNode.sizeOf_children_lt_cons c cs
    | simp

end

end P1

namespace RT

/-- The inner `traverse` of `getRichTextFromNode` in
`src/src/app/api/presentation/download/route.ts`: a child with truthy
`text` always contributes a run (no whitespace filtering at extraction). -/
def traverse (o : TextOpts) : List PNode → List TextRun
  | [] => []
  | c :: cs =>
    let o2 := updateFlags o c
    (if strTruthy c.text then [⟨c.text.getD "", o2⟩]
    else traverse o2 c.children)
    ++ traverse o cs
termination_by l => sizeOf l
decreasing_by
  · exact PNode.sizeOf_children_lt_cons c cs
  · simp

/-- `getRichTextFromNode` of the route variant (base options `{}`). -/
def getRichTextFromNode (node : PNode) : List TextRun :=
  traverse {} node.children

/-- `getTextNodeStyle` of the route variant. -/
def getTextNodeStyle (node : PNode) (theme : Theme) : TextOpts :=
  let colors := theme.properties.colorsLight
  let fonts := theme.properties.fonts
  let baseOptions : TextOpts :=
    { color := stripHash colors.text
      fontFace := fonts.body
      fontSize := some 16
      valign := "top" }
  if node.ty = "h1" then
    { baseOptions with
      color := stripHash colors.heading
      fontFace := fonts.heading
      fontSize := some 36
      bold := true
      autoFitOpt := true }
  else if node.ty = "h2" then
    { baseOptions with
      color := stripHash colors.heading
      fontFace := fonts.heading
      fontSize := some 28
      bold := true
      autoFitOpt := true }
  else if node.ty = "h3" then
    { baseOptions with
      color := stripHash colors.heading
      fontFace := fonts.heading
      fontSize := some 24
      bold := true
      autoFitOpt := true }
  else if node.ty = "h4" then
    { baseOptions with
      color := stripHash colors.heading
      fontFace := fonts.heading
      fontSize := some 20
      bold := true
      autoFitOpt := true }
  else if node.ty = "h5" then
    { baseOptions with
      color := stripHash colors.heading
      fontFace := fonts.heading
      fontSize := some 18
      autoFitOpt := true }
  else if node.ty = "h6" then
    { baseOptions with
      color := stripHash colors.muted
      fontSize := some 16
      autoFitOpt := true }
  else if node.ty = "p" then
    { baseOptions with fontSize := some 14, autoFitOpt := true }
  else if node.ty = "bullet" then
    { baseOptions with fontSize := some 14, bulletStyle := true, autoFitOpt := true }
  else baseOptions

/-- `addTextElement` of the route variant: approximate height is
`fontSize / 72 * 1.5 * richText.length` (number of runs, no minimum). -/
def addTextElement (node : PNode) (theme : Theme) (area : ContentArea) (y : ℚ) :
    ℚ × List DrawCmd :=
  let richText := getRichTextFromNode node
  if richText.all (fun t => jsTrim t.text == "") then (y, [])
  else
    let style := getTextNodeStyle node theme
    let textH : ℚ := (style.fontSize.getD 14) / 72 * (3 / 2) * richText.length
    let style2 := if node.ty.startsWith "h" then { style with alignOpt := some "center" } else style
    let box : BoxOpts :=
      if node.ty = "bullet" then
        { x := .num (area.x + 1 / 4)
          y := .num y
          w := .num (area.w - 1 / 4)
          h := .num textH }
      else
        { x := .num area.x
          y := .num y
          w := .num area.w
          h := .num textH }
    (y + textH + 1 / 10, [DrawCmd.text richText box style2])

/-- `addImageElement` of the route variant. -/
def addImageElement (node : PNode) (area : ContentArea) (y : ℚ) :
    ℚ × List DrawCmd :=
  if strTruthy node.url then
    (y + 2 + 1 / 5,
      [DrawCmd.image (node.url.getD "") (.num area.x) (.num y) (.num area.w) (.num 2)
        (some ("contain", .num area.w, .num 2))])
  else (y, [])

mutual

/-- `processNode` of the route variant (lines 525–553): per-type dispatch,
with `chart` / `visualization-list` placeholder labels. -/
def processNode (theme : Theme) (area : ContentArea) (y : ℚ) (node : PNode) :
    ℚ × List DrawCmd :=
  if node.ty = "h1" ∨ node.ty = "h2" ∨ node.ty = "h3" ∨ node.ty = "h4" ∨
      node.ty = "h5" ∨ node.ty = "h6" ∨ node.ty = "p" then
    addTextElement node theme area y
  else if node.ty = "img" then
    addImageElement node area y
  else if node.ty = "column" then
    let k := (node.children.filter (fun c => c.ty = "column_item")).length
    if k = 0 then (y, [])
    else
      let colW := (area.w - ((k : ℚ) - 1) * (1 / 5)) / (k : ℚ)
      let r := processColumns theme area colW y 0 node.children
      (r.1 + 1 / 5, r.2)
  else if node.ty = "bullets" then
    processSeq theme area y node.children
  else if node.ty = "bullet" then
    addTextElement node theme area y
  else if node.ty = "chart" then
    (y + 3 / 5,
      [DrawCmd.textStr ("[Chart: " ++ node.chartType ++ "]")
        { x := .num area.x, y := .num y, w := .num area.w, h := .num (1 / 2) }])
  else if node.ty = "visualization-list" then
    (y + 3 / 5,
      [DrawCmd.textStr ("[Visualization: " ++ node.visualizationType ++ "]")
        { x := .num area.x, y := .num y, w := .num area.w, h := .num (1 / 2) }])
  else (y, [])
termination_by sizeOf node
decreasing_by
  all_goals exact PNode.sizeOf_children_lt node

/-- `addBulletsElement` of the route variant, and the per-column loop body:
sequential layout threading the cursor. -/
def processSeq (theme : Theme) (area : ContentArea) (y : ℚ) :
    List PNode → ℚ × List DrawCmd
  | [] => (y, [])
  | n :: ns =>
    let r1 := processNode theme area y n
    let r2 := processSeq theme area r1.1 ns
    (r2.1, r1.2 ++ r2.2)
termination_by l => sizeOf l
decreasing_by
  all_goals simp
  all_goals omega

/-- The `columns.forEach` of `addColumnsElement` (lines 465–500). -/
def processColumns (theme : Theme) (area : ContentArea) (colW y : ℚ) (idx : ℕ) :
    List PNode → ℚ × List DrawCmd
  | [] => (y, [])
  | c :: cs =>
    if c.ty = "column_item" then
      let colArea : ContentArea :=
        { area with x := area.x + (idx : ℚ) * (colW + 1 / 5), w := colW }
      let rc := processSeq theme colArea y c.children
      let rr := processColumns theme area colW y (idx + 1) cs
      (max rc.1 rr.1, rc.2 ++ rr.2)
    else processColumns theme area colW y idx cs
termination_by l => sizeOf l
decreasing_by
  all_goals first
    | exact PNode.sizeOf_children_lt_cons c cs
    | simp

end

end RT

/-- `rootImage` of a `PlateSlide`. -/
structure RootImage where
  query : String
  url : Option String

/-- A `PlateSlide`, restricted to the fields the export reads, plus
`imageOk`, the oracle telling whether `slide.addImage` of the root image
succeeds (it models the `try`/`catch` around root-image placement: the
actual failure condition lives inside the external `pptxgenjs` writer). -/
structure PlateSlide where
  id : String
  content : List PNode
  rootImage : Option RootImage := none
  layoutType : Option String := none
  bgColor : Option String := none
  imageOk : Bool := true

namespace P1

/-- The default content area of `addSlideContent`
(`{ x: 0.5, y: 0.5, w: 9.0, h: 4.625 }`). -/
def defaultContentArea : ContentArea :=
  { x := 1 / 2, y := 1 / 2, w := 9, h := 37 / 8 }

/-- The root-image placement step of `addSlideContent` (lines 220–249):
returns the emitted commands, the resulting content area, and the theme
(the full-background branch mutates the slide theme's text/heading colors).
When `imageOk` is false every branch throws at `slide.addImage` and the
`catch` emits the `[Image not found]` placeholder, leaving the content area
and theme untouched. -/
def placeRootImage (theme : Theme) (s : PlateSlide) :
    List DrawCmd × ContentArea × Theme :=
  match s.rootImage with
  | none => ([], defaultContentArea, theme)
  | some ri =>
    if strTruthy ri.url then
      let imagePath := ri.url.getD ""
      if s.imageOk then
        if s.layoutType = some "left" then
          ([DrawCmd.image imagePath (.num 0) (.num 0) (.pct 50) (.pct 100)
              (some ("cover", .pct 50, .pct 100))],
            { x := 21 / 4, y := 1 / 2, w := 9 / 2, h := 37 / 8 }, theme)
        else if s.layoutType = some "right" then
          ([DrawCmd.image imagePath (.pct 50) (.num 0) (.pct 50) (.pct 100)
              (some ("cover", .pct 50, .pct 100))],
            { x := 1 / 4, y := 1 / 2, w := 9 / 2, h := 37 / 8 }, theme)
        else if s.layoutType = some "vertical" then
          ([DrawCmd.image imagePath (.num 0) (.num 0) (.pct 100) (.pct 50)
              (some ("cover", .pct 100, .pct 50))],
            { x := 1 / 2, y := 3, w := 9, h := 17 / 8 }, theme)
        else
          ([DrawCmd.image imagePath (.num 0) (.num 0) (.pct 100) (.pct 100)
              (some ("cover", .pct 100, .pct 100)),
            DrawCmd.shape (.num 0) (.num 0) (.pct 100) (.pct 100) "000000" 30],
            defaultContentArea,
            { theme with properties := { theme.properties with colorsLight :=
                { theme.properties.colorsLight with
                  text := "#FFFFFF", heading := "#FFFFFF" } } })
      else
        ([DrawCmd.textStr "[Image not found]"
            { x := .num 0, y := .num 0, w := .pct 50, h := .pct 100 }],
          defaultContentArea, theme)
    else ([], defaultContentArea, theme)

/-- `addSlideContent` of `src/unnamed/part_001` (lines 211–262): place the
root image, then lay out the slide's top-level nodes in order starting at
the content area's `y`.  Returns the emitted commands and the final slide
theme. -/
def addSlideContent (theme : Theme) (s : PlateSlide) : List DrawCmd × Theme :=
  let r := placeRootImage theme s
  let content := processSeq r.2.2 r.2.1 r.2.1.y s.content
  (r.1 ++ content.2, r.2.2)

end P1

/-- A hexadecimal digit's value, as `parseInt(-, 16)` reads one char. -/
def hexDigit (c : Char) : Option ℕ :=
  if '0' ≤ c ∧ c ≤ '9' then some (c.toNat - '0'.toNat)
  else if 'a' ≤ c ∧ c ≤ 'f' then some (c.toNat - 'a'.toNat + 10)
  else if 'A' ≤ c ∧ c ≤ 'F' then some (c.toNat - 'A'.toNat + 10)
  else none

/-- JS `parseInt(s, 16)` on a string of at most two chars: parses the
longest valid prefix, `NaN` (modelled `none`) when the first char is not a
hex digit. -/
def hexByte : List Char → Option ℕ
  | [] => none
  | [a] => hexDigit a
  | a :: b :: _ =>
    match hexDigit a with
    | none => none
    | some x =>
      match hexDigit b with
      | none => some x
      | some y => some (16 * x + y)

/-- The `r`/`g`/`b` components the `POST` handler of `src/unnamed/part_001`
reads out of a background color (`substring(0,2)/(2,4)/(4,6)` of the color
with its first `#` removed); `none` stands for `NaN`. -/
def parseHexColor (bg : String) : Option (ℕ × ℕ × ℕ) :=
  let hex := (stripHash bg).data
  match hexByte (hex.take 2), hexByte ((hex.drop 2).take 2), hexByte ((hex.drop 4).take 2) with
  | some r, some g, some b => some (r, g, b)
  | _, _, _ => none

/-- The luminance the handler computes:
`(0.299 * r + 0.587 * g + 0.114 * b) / 255`; `none` stands for `NaN`
(any comparison with `NaN` is false). -/
def luminanceOf (bg : String) : Option ℚ :=
  (parseHexColor bg).map fun x =>
    ((299 : ℚ) / 1000 * x.1 + 587 / 1000 * x.2.1 + 114 / 1000 * x.2.2) / 255

/-- The spec's luminance formula: perceptual weighting of the RGB
components normalized to `[0,1]`. -/
def specLuminance (r g b : ℕ) : ℚ :=
  (299 : ℚ) / 1000 * ((r : ℚ) / 255) + 587 / 1000 * ((g : ℚ) / 255)
    + 114 / 1000 * ((b : ℚ) / 255)

/-- The per-slide theme the `POST` handler of `src/unnamed/part_001`
prepares before calling `addSlideContent` (lines 299–324): a deep clone of
the base theme (value copy here), then the luminance-based override of
text/heading/muted when the final background color is dark. -/
def slideThemeFor (base : Theme) (s : PlateSlide) : Theme :=
  let finalBgColor := s.bgColor.getD base.properties.colorsLight.background
  match luminanceOf finalBgColor with
  | some l =>
    if l < 1 / 2 then
      { base with properties := { base.properties with colorsLight :=
          { base.properties.colorsLight with
            text := "#FFFFFF", heading := "#FFFFFF", muted := "#E5E7EB" } } }
    else base
  | none => base

/-- One iteration of the `POST` slide loop: clone the base theme, apply the
per-slide background override, compose the slide.  Returns the slide's
commands and the slide theme after composition. -/
def composeSlide (base : Theme) (s : PlateSlide) : List DrawCmd × Theme :=
  P1.addSlideContent (slideThemeFor base s) s

/-- The `POST` slide loop over a deck: per slide the composition result,
threading the (never written) shared base theme through and returning it,
so that aliasing of the base theme would be observable. -/
def composeDeck (base : Theme) : List PlateSlide → List (List DrawCmd × Theme) × Theme
  | [] => ([], base)
  | s :: rest =>
    let r := composeSlide base s
    let d := composeDeck base rest
    (r :: d.1, d.2)

/-- Whether the part_001 extractor finds a non-blank run at or below one
child (this mirrors the traversal order: a child with truthy `text` is a
leaf of the traversal even when it has children). -/
def hasNonBlankChild : PNode → Bool
  | .mk _ text _ _ _ _ _ _ _ children =>
    if strTruthy text then !(jsTrim (text.getD "") == "") else go children
where go : List PNode → Bool
  | [] => false
  | c :: cs => hasNonBlankChild c || go cs

/-- Whether the extractor finds at least one non-blank run in a child
list. -/
def hasNonBlankRun : List PNode → Bool :=
  hasNonBlankChild.go

@[simp] theorem hasNonBlankRun_nil : hasNonBlankRun [] = false := rfl

@[simp] theorem hasNonBlankRun_cons (c : PNode) (cs : List PNode) :
    hasNonBlankRun (c :: cs)
      = ((if strTruthy c.text then !(jsTrim (c.text.getD "") == "")
          else hasNonBlankRun c.children)
        || hasNonBlankRun cs) := by
  cases c
  rfl

/-- Every `text` value in a subtree is empty or whitespace-only. -/
def allTextBlank : PNode → Bool
  | .mk _ text _ _ _ _ _ _ _ children => (jsTrim (text.getD "") == "") && go children
where go : List PNode → Bool
  | [] => true
  | c :: cs => allTextBlank c && go cs

/-- Every `text` value in a subtree list is empty or whitespace-only. -/
def allTextBlankList : List PNode → Bool :=
  allTextBlank.go

@[simp] theorem allTextBlankList_nil : allTextBlankList [] = true := rfl

@[simp] theorem allTextBlankList_cons (c : PNode) (cs : List PNode) :
    allTextBlankList (c :: cs)
      = ((jsTrim (c.text.getD "") == "") && allTextBlankList c.children
          && allTextBlankList cs) := by
  cases c
  rfl

/-- Number of nodes of a tree carrying non-empty, non-whitespace text. -/
def countNonBlankLeaves : PNode → ℕ
  | .mk _ text _ _ _ _ _ _ _ children =>
    (if jsTrim (text.getD "") ≠ "" then 1 else 0) + go children
where go : List PNode → ℕ
  | [] => 0
  | c :: cs => countNonBlankLeaves c + go cs

/-- Text-bearing drawing commands (`slide.addText` calls). -/
def isTextCmd : DrawCmd → Bool
  | .text _ _ _ => true
  | .textStr _ _ => true
  | _ => false

mutual

/-- Number of text-bearing commands the part_001 engine emits for a node:
one per text-bearing block node that passes the non-blank guard, zero for
containers themselves, recursing the way the engine does. -/
def countTextBlocks (n : PNode) : ℕ :=
  if hasNonBlankRun n.children = false then 0
  else if n.ty = "h1" ∨ n.ty = "h2" ∨ n.ty = "h3" ∨ n.ty = "h4" ∨ n.ty = "p"
      ∨ n.ty = "bullet" then 1
  else if n.ty = "column" then countCols n.children
  else if n.ty = "bullets" then countSeqBlocks n.children
  else 0
termination_by sizeOf n
decreasing_by
  all_goals exact PNode.sizeOf_children_lt n

def countSeqBlocks : List PNode → ℕ
  | [] => 0
  | c :: cs => countTextBlocks c + countSeqBlocks cs
termination_by l => sizeOf l
decreasing_by
  all_goals simp
  all_goals omega

def countCols : List PNode → ℕ
  | [] => 0
  | c :: cs =>
    (if c.ty = "column_item" then countSeqBlocks c.children else 0) + countCols cs
termination_by l => sizeOf l
decreasing_by
  all_goals first
    | exact PNode.sizeOf_children_lt_cons c cs
    | simp

end

/-- A leaf text node. -/
def leaf (s : String) : PNode :=
  .mk "" (some s) false false false false none "" "" []

/-- An element node of the given type. -/
def elt (ty : String) (children : List PNode) : PNode :=
  .mk ty none false false false false none "" "" children

/-- An image node with an optional url. -/
def imgNode (u : Option String) (children : List PNode) : PNode :=
  .mk "img" none false false false false u "" "" children

/-- A concrete theme used to instantiate witnesses. -/
def sampleTheme : Theme :=
  { name := "daktilo"
    properties :=
      { colorsLight :=
          { background := "#FFFFFF"
            text := "#111827"
            heading := "#0F172A"
            muted := "#6B7280" }
        fonts := { heading := "Georgia", body := "Inter" } } }

theorem P1.traverse_text_nonblank (o : TextOpts) (l : List PNode) :
    ∀ r ∈ P1.traverse o l, jsTrim r.text ≠ "" := by
  induction o, l using P1.traverse.induct with
  | case1 o => simp [P1.traverse]
  | case2 o c cs o2 ih1 ih2 =>
    intro r hr
    simp only [P1.traverse, List.mem_append] at hr
    rcases hr with h | h
    · by_cases hb : strTruthy c.text
      · rw [if_pos hb] at h
        by_cases ht : jsTrim (c.text.getD "") ≠ ""
        · rw [if_pos ht] at h
          simp only [List.mem_singleton] at h
          subst h
          simpa using ht
        · rw [if_neg ht] at h
          simp at h
      · rw [if_neg hb] at h
        exact ih1 r h
    · exact ih2 r h

theorem P1.traverse_eq_nil_iff (o : TextOpts) (l : List PNode) :
    P1.traverse o l = [] ↔ hasNonBlankRun l = false := by
  induction o, l using P1.traverse.induct with
  | case1 o => simp [P1.traverse]
  | case2 o c cs o2 ih1 ih2 =>
    by_cases hb : strTruthy c.text
    · by_cases ht : jsTrim (c.text.getD "") = ""
      · simp [P1.traverse, hb, ht, ih2]
      · simp [P1.traverse, hb, ht]
    · simp [P1.traverse, hb, ih1, ih2]

theorem P1.rich_guard_iff (o : TextOpts) (l : List PNode) :
    ((P1.traverse o l).any fun t => !(jsTrim t.text == "")) = false ↔
      hasNonBlankRun l = false := by
  rw [← P1.traverse_eq_nil_iff o l]
  constructor
  · intro h
    cases hl : P1.traverse o l with
    | nil => rfl
    | cons r rs =>
      have hr := P1.traverse_text_nonblank o l r (by rw [hl]; simp)
      rw [hl] at h
      simp at h
      exact absurd h.1 hr
  · intro h
    rw [h]
    simp

theorem P1.traverse_eq_nil_of_blank (o : TextOpts) (l : List PNode)
    (h : allTextBlankList l = true) : P1.traverse o l = [] := by
  induction o, l using P1.traverse.induct with
  | case1 o => simp [P1.traverse]
  | case2 o c cs o2 ih1 ih2 =>
    rw [allTextBlankList_cons] at h
    simp only [Bool.and_eq_true] at h
    obtain ⟨⟨hc, hch⟩, hcs⟩ := h
    have ht : jsTrim (c.text.getD "") = "" := by simpa using hc
    by_cases hb : strTruthy c.text
    · simp [P1.traverse, hb, ht, ih2 hcs]
    · simp [P1.traverse, hb, ih1 hch, ih2 hcs]

theorem P1.processNode_blank (theme : Theme) (area : ContentArea) (y : ℚ)
    (n : PNode) (h : allTextBlankList n.children = true) :
    P1.processNode theme area y n = (y, []) := by
  have hnil := P1.traverse_eq_nil_of_blank (P1.getTextNodeStyle n theme) n.children h
  rw [P1.processNode]
  simp [P1.getRichTextFromNode, hnil]

theorem P1.traverse_skip_blank_leaf (o : TextOpts) (pre post : List PNode) (c : PNode)
    (hblank : jsTrim (c.text.getD "") = "") (hleaf : c.children = []) :
    P1.traverse o (pre ++ c :: post) = P1.traverse o (pre ++ post) := by
  induction pre generalizing o with
  | nil =>
    simp only [List.nil_append]
    rw [P1.traverse]
    by_cases hb : strTruthy c.text
    · simp [hb, hblank]
    · simp [hb, hleaf, P1.traverse]
  | cons p ps ih =>
    simp only [List.cons_append, P1.traverse]
    rw [ih]

/-- **C2**: for every ContentNode tree all of whose text leaves carry empty
or whitespace-only text, the Block Layout Engine (part_001 `processNode`)
returns the input cursor unchanged and emits no drawing commands; and
correspondingly the Rich-Text Extractor (`getRichTextFromNode`'s
`traverse`) emits no styled run for an empty or whitespace-only leaf —
dropping such a leaf from the child list leaves the extracted runs
unchanged. -/
theorem C2_blank_tree_layout_noop :
    (∀ (n : PNode), allTextBlank n = true →
      ∀ (theme : Theme) (area : ContentArea) (y : ℚ),
        P1.processNode theme area y n = (y, []))
    ∧ (∀ (o : TextOpts) (pre post : List PNode) (c : PNode),
        jsTrim (c.text.getD "") = "" → c.children = [] →
        P1.traverse o (pre ++ c :: post) = P1.traverse o (pre ++ post)) := by
  constructor
  · intro n h theme area y
    refine P1.processNode_blank theme area y n ?_
    cases n with
    | mk ty text b i u s url ct vt ch =>
      simp only [allTextBlank, Bool.and_eq_true] at h
      simpa [allTextBlankList, PNode.children] using h.2
  · exact P1.traverse_skip_blank_leaf

/-- Witness for C2: a concrete whitespace-only tree is a layout no-op, and
a concrete whitespace-only leaf is skipped by the extractor. -/
theorem C2_blank_tree_layout_noop_witness :
    P1.processNode sampleTheme P1.defaultContentArea 1 (elt "p" [leaf " ", leaf ""]) = (1, [])
    ∧ P1.traverse {} ([leaf "hi"] ++ leaf "  " :: []) = P1.traverse {} ([leaf "hi"] ++ []) :=
  ⟨C2_blank_tree_layout_noop.1 (elt "p" [leaf " ", leaf ""]) (by decide)
      sampleTheme P1.defaultContentArea 1,
    C2_blank_tree_layout_noop.2 {} [leaf "hi"] [] (leaf "  ") (by decide) rfl⟩

/-- **C9**: a node whose `type` is outside the recognized set is a total
no-op in both engines: no drawing commands, cursor unchanged (and, being a
total function into `ℚ × List DrawCmd`, no error). -/
theorem C9_unrecognized_type_noop :
    (∀ (theme : Theme) (area : ContentArea) (y : ℚ) (n : PNode),
      n.ty ∉ (["h1", "h2", "h3", "h4", "p", "img", "column", "bullets", "bullet"] : List String) →
      P1.processNode theme area y n = (y, []))
    ∧ (∀ (theme : Theme) (area : ContentArea) (y : ℚ) (n : PNode),
      n.ty ∉ (["h1", "h2", "h3", "h4", "h5", "h6", "p", "img", "column", "bullets",
        "bullet", "chart", "visualization-list"] : List String) →
      RT.processNode theme area y n = (y, [])) := by
  constructor
  · intro theme area y n h
    simp only [List.mem_cons, List.not_mem_nil, or_false, not_or] at h
    obtain ⟨e1, e2, e3, e4, e5, e6, e7, e8, e9⟩ := h
    rw [P1.processNode]
    simp [e1, e2, e3, e4, e5, e6, e7, e8, e9]
  · intro theme area y n h
    simp only [List.mem_cons, List.not_mem_nil, or_false, not_or] at h
    obtain ⟨e1, e2, e3, e4, e5, e6, e7, e8, e9, e10, e11, e12, e13⟩ := h
    rw [RT.processNode]
    simp [e1, e2, e3, e4, e5, e6, e7, e8, e9, e10, e11, e12, e13]

/-- Witness for C9: a `blockquote` node (with non-blank text, so nothing
else suppresses it) is a no-op in both engines. -/
theorem C9_unrecognized_type_noop_witness :
    P1.processNode sampleTheme P1.defaultContentArea 2 (elt "blockquote" [leaf "hi"]) = (2, [])
    ∧ RT.processNode sampleTheme P1.defaultContentArea 2 (elt "blockquote" [leaf "hi"]) = (2, []) :=
  ⟨C9_unrecognized_type_noop.1 sampleTheme P1.defaultContentArea 2
      (elt "blockquote" [leaf "hi"]) (by decide),
    C9_unrecognized_type_noop.2 sampleTheme P1.defaultContentArea 2
      (elt "blockquote" [leaf "hi"]) (by decide)⟩

/-- **C5** (code bug): in the part_001 engine the early rich-text guard
(`if (!richText.some(t => t.text?.trim())) return y;`, lines 137–139) runs
before the `img` branch, so an image node that carries a resolved url but
no non-blank text descendant (the normal shape of a Plate image node, whose
children are `[{text: ""}]`) emits nothing and leaves the cursor unchanged,
contradicting the claim; the route.ts engine dispatches on the type first
and behaves as the claim states on the same input. -/
theorem C5_img_with_url_dropped_by_guard :
    P1.processNode sampleTheme P1.defaultContentArea 1
        (imgNode (some "https://img.example/p.png") [leaf ""]) = (1, [])
    ∧ RT.processNode sampleTheme P1.defaultContentArea 1
        (imgNode (some "https://img.example/p.png") [leaf ""])
      = (1 + 2 + 1 / 5,
          [DrawCmd.image "https://img.example/p.png" (.num (1 / 2)) (.num 1) (.num 9) (.num 2)
            (some ("contain", .num 9, .num 2))])
    ∧ (1 : ℚ) ≠ 1 + 2 + 1 / 5 := by
  refine ⟨P1.processNode_blank _ _ _ _ (by decide), ?_, by norm_num⟩
  rw [RT.processNode]
  simp [RT.addImageElement, strTruthy, imgNode, leaf, P1.defaultContentArea,
    PNode.ty, PNode.url, PNode.children]

/-- **C3**: for a slide that declares an explicit background color, the
export computes luminance by the standard perceptual weighting of the hex
RGB components normalized to `[0,1]`; strictly below `0.5` the slide's
resolved text/heading/muted colors are overridden to light values, at or
above `0.5` the theme is kept unchanged. -/
theorem C3_luminance_override (base : Theme) (s : PlateSlide) (bg : String)
    (hbg : s.bgColor = some bg) :
    (∀ r g b, parseHexColor bg = some (r, g, b) →
      luminanceOf bg = some (specLuminance r g b))
    ∧ (∀ l, luminanceOf bg = some l → l < 1 / 2 →
        slideThemeFor base s =
          { base with properties := { base.properties with colorsLight :=
              { base.properties.colorsLight with
                text := "#FFFFFF", heading := "#FFFFFF", muted := "#E5E7EB" } } })
    ∧ (∀ l, luminanceOf bg = some l → ¬ l < 1 / 2 → slideThemeFor base s = base) := by
  refine ⟨?_, ?_, ?_⟩
  · intro r g b hp
    simp only [luminanceOf, hp, Option.map_some', Option.some_inj, specLuminance]
    ring
  · intro l hl hlt
    unfold slideThemeFor
    rw [hbg]
    simp only [Option.getD_some, hl]
    rw [if_pos hlt]
  · intro l hl hlt
    unfold slideThemeFor
    rw [hbg]
    simp only [Option.getD_some, hl]
    rw [if_neg hlt]

/-- Witness for C3: `#101010` has luminance `16/255 < 0.5` and flips the
text/heading/muted colors of the sample theme; `#FFFFFF` has luminance `1`
and keeps the theme. -/
theorem C3_luminance_override_witness :
    slideThemeFor sampleTheme { id := "s1", content := [], bgColor := some "#101010" }
      = { sampleTheme with properties := { sampleTheme.properties with colorsLight :=
          { sampleTheme.properties.colorsLight with
            text := "#FFFFFF", heading := "#FFFFFF", muted := "#E5E7EB" } } }
    ∧ slideThemeFor sampleTheme { id := "s2", content := [], bgColor := some "#FFFFFF" }
      = sampleTheme :=
  ⟨(C3_luminance_override sampleTheme _ "#101010" rfl).2.1 (16 / 255)
      (by
        have hp : parseHexColor "#101010" = some (16, 16, 16) := by decide
        simp only [luminanceOf, hp, Option.map_some', Option.some_inj]
        norm_num)
      (by norm_num),
    (C3_luminance_override sampleTheme _ "#FFFFFF" rfl).2.2 1
      (by
        have hp : parseHexColor "#FFFFFF" = some (255, 255, 255) := by decide
        simp only [luminanceOf, hp, Option.map_some', Option.some_inj]
        norm_num)
      (by norm_num)⟩

theorem composeDeck_snd (base : Theme) : ∀ l, (composeDeck base l).2 = base := by
  intro l
  induction l with
  | nil => rfl
  | cons s rest ih => simp [composeDeck, ih]

/-- **C4**: the per-slide overrides never leak: composing a deck leaves the
shared base theme unchanged, and every slide's composition result is a
function of the base theme and that slide alone — inserting a slide
anywhere changes no other slide's commands or palette. -/
theorem C4_no_cross_slide_leak (base : Theme) (pre : List PlateSlide)
    (s : PlateSlide) (post : List PlateSlide) :
    (composeDeck base (pre ++ s :: post)).2 = base
    ∧ (composeDeck base (pre ++ s :: post)).1
      = (composeDeck base pre).1 ++ composeSlide base s :: (composeDeck base post).1 := by
  refine ⟨composeDeck_snd base _, ?_⟩
  induction pre with
  | nil => simp [composeDeck]
  | cons p ps ih => simp [composeDeck, ih]

/-- **C8 (amended)**: when placing a slide's root image fails, the part_001
composer emits the `[Image not found]` placeholder at the fixed region
`(x 0, y 0, w 50%, h 100%)` (not at the image's intended region), leaves
the theme untouched, and still lays out the slide's content nodes, from the
default content area. -/
theorem C8_image_failure_contained (theme : Theme) (s : PlateSlide) (ri : RootImage)
    (hri : s.rootImage = some ri) (hurl : strTruthy ri.url = true)
    (hfail : s.imageOk = false) :
    P1.addSlideContent theme s
      = (DrawCmd.textStr "[Image not found]"
            { x := .num 0, y := .num 0, w := .pct 50, h := .pct 100 }
          :: (P1.processSeq theme P1.defaultContentArea (1 / 2) s.content).2,
        theme) := by
  rw [P1.addSlideContent, P1.placeRootImage]
  simp [hri, hurl, hfail, P1.defaultContentArea]

/-- Witness for C8: a concrete slide with a failing root image keeps its
paragraph content and gets the placeholder. -/
theorem C8_image_failure_contained_witness :
    P1.addSlideContent sampleTheme
        { id := "s", content := [elt "p" [leaf "Hello"]],
          rootImage := some ⟨"query", some "https://img.example/bg.png"⟩,
          layoutType := some "right", imageOk := false }
      = (DrawCmd.textStr "[Image not found]"
            { x := .num 0, y := .num 0, w := .pct 50, h := .pct 100 }
          :: (P1.processSeq sampleTheme P1.defaultContentArea (1 / 2)
              [elt "p" [leaf "Hello"]]).2,
        sampleTheme) :=
  C8_image_failure_contained sampleTheme _ ⟨"query", some "https://img.example/bg.png"⟩
    rfl (by decide) rfl

/-- A slide with `layoutType = "vertical"` whose root image fails to
place. -/
def failVerticalSlide : PlateSlide :=
  { id := "s", content := [],
    rootImage := some ⟨"query", some "https://img.example/bg.png"⟩,
    layoutType := some "vertical", imageOk := false }

/-- The same slide with the image placement succeeding. -/
def okVerticalSlide : PlateSlide :=
  { failVerticalSlide with imageOk := true }

/-- **C8 counterexample**: the claim says the placeholder is emitted "in
the image's intended region"; for a `vertical` layout the intended region
is the full-width top half `(w 100%, h 50%)`, but the placeholder is always
emitted at `(w 50%, h 100%)` — the regions differ. -/
theorem C8_placeholder_region_counterexample :
    (P1.addSlideContent sampleTheme failVerticalSlide).1
      = [DrawCmd.textStr "[Image not found]"
          { x := .num 0, y := .num 0, w := .pct 50, h := .pct 100 }]
    ∧ (P1.addSlideContent sampleTheme okVerticalSlide).1
      = [DrawCmd.image "https://img.example/bg.png" (.num 0) (.num 0) (.pct 100) (.pct 50)
          (some ("cover", .pct 100, .pct 50))]
    ∧ ((Coord.pct 50, Coord.pct 100) : Coord × Coord) ≠ (Coord.pct 100, Coord.pct 50) := by
  refine ⟨?_, ?_, by decide⟩
  · simp [P1.addSlideContent, P1.placeRootImage, failVerticalSlide, strTruthy, P1.processSeq]
  · simp [P1.addSlideContent, P1.placeRootImage, okVerticalSlide, failVerticalSlide,
      strTruthy, P1.processSeq]

theorem add_block_le (y e c : ℚ) (hc : 0 ≤ c) : y ≤ y + (max e (1 / 2)) + c := by
  have h := le_max_right e ((1 : ℚ) / 2)
  linarith

mutual

theorem P1.processNode_fst_mono (theme : Theme) (area : ContentArea) (y : ℚ) (n : PNode) :
    y ≤ (P1.processNode theme area y n).1 := by
  simp only [P1.processNode]
  split
  · simp
  · split
    · exact add_block_le y _ _ (by norm_num)
    · split
      · split
        · simp
          linarith
        · simp
      · split
        · split
          · simp
          · have := P1.processColumns_fst_mono theme area
              ((area.w - ((((n.children.filter fun c => c.ty = "column_item")).length : ℚ) - 1) * (1 / 5))
                / (((n.children.filter fun c => c.ty = "column_item")).length : ℚ)) y 0 n.children
            simp only []
            linarith
        · split
          · exact P1.processSeq_fst_mono theme area y n.children
          · split
            · exact add_block_le y _ _ (by norm_num)
            · simp
termination_by sizeOf n
decreasing_by
  all_goals exact PNode.sizeOf_children_lt n

theorem P1.processSeq_fst_mono (theme : Theme) (area : ContentArea) (y : ℚ) (l : List PNode) :
    y ≤ (P1.processSeq theme area y l).1 := by
  match l with
  | [] => simp [P1.processSeq]
  | c :: cs =>
    rw [P1.processSeq]
    have h1 := P1.processNode_fst_mono theme area y c
    have h2 := P1.processSeq_fst_mono theme area (P1.processNode theme area y c).1 cs
    simp only []
    linarith
termination_by sizeOf l
decreasing_by
  all_goals simp
  all_goals omega

theorem P1.processColumns_fst_mono (theme : Theme) (area : ContentArea) (colW y : ℚ)
    (idx : ℕ) (l : List PNode) :
    y ≤ (P1.processColumns theme area colW y idx l).1 := by
  match l with
  | [] => simp [P1.processColumns]
  | c :: cs =>
    rw [P1.processColumns]
    split
    · have h2 := P1.processColumns_fst_mono theme area colW y (idx + 1) cs
      simp only []
      exact le_trans h2 (le_max_right _ _)
    · exact P1.processColumns_fst_mono theme area colW y idx cs
termination_by sizeOf l
decreasing_by
  all_goals simp

end

theorem RT.fontSize_nonneg (n : PNode) (theme : Theme) :
    0 ≤ (RT.getTextNodeStyle n theme).fontSize.getD 14 := by
  simp only [RT.getTextNodeStyle]
  repeat' split
  all_goals norm_num

theorem RT.addTextElement_fst_mono (n : PNode) (theme : Theme) (area : ContentArea) (y : ℚ) :
    y ≤ (RT.addTextElement n theme area y).1 := by
  simp only [RT.addTextElement]
  split
  · simp
  · have hf := RT.fontSize_nonneg n theme
    have hl : (0 : ℚ) ≤ ((RT.getRichTextFromNode n).length : ℚ) := by positivity
    have hh : 0 ≤ (RT.getTextNodeStyle n theme).fontSize.getD 14 / 72 * (3 / 2)
        * ((RT.getRichTextFromNode n).length : ℚ) := by positivity
    simp only []
    linarith

mutual

theorem RT.processNode_fst_mono_rt (theme : Theme) (area : ContentArea) (y : ℚ) (n : PNode) :
    y ≤ (RT.processNode theme area y n).1 := by
  simp only [RT.processNode]
  split
  · exact RT.addTextElement_fst_mono n theme area y
  · split
    · simp only [RT.addImageElement]
      split
      · simp
        linarith
      · simp
    · split
      · split
        · simp
        · have := RT.processColumns_fst_mono_rt theme area
            ((area.w - ((((n.children.filter fun c => c.ty = "column_item")).length : ℚ) - 1) * (1 / 5))
              / (((n.children.filter fun c => c.ty = "column_item")).length : ℚ)) y 0 n.children
          simp only []
          linarith
      · split
        · exact RT.processSeq_fst_mono_rt theme area y n.children
        · split
          · exact RT.addTextElement_fst_mono n theme area y
          · split
            · simp
              linarith
            · split
              · simp
                linarith
              · simp
termination_by sizeOf n
decreasing_by
  all_goals exact PNode.sizeOf_children_lt n

theorem RT.processSeq_fst_mono_rt (theme : Theme) (area : ContentArea) (y : ℚ) (l : List PNode) :
    y ≤ (RT.processSeq theme area y l).1 := by
  match l with
  | [] => simp [RT.processSeq]
  | c :: cs =>
    rw [RT.processSeq]
    have h1 := RT.processNode_fst_mono_rt theme area y c
    have h2 := RT.processSeq_fst_mono_rt theme area (RT.processNode theme area y c).1 cs
    simp only []
    linarith
termination_by sizeOf l
decreasing_by
  all_goals simp
  all_goals omega

theorem RT.processColumns_fst_mono_rt (theme : Theme) (area : ContentArea) (colW y : ℚ)
    (idx : ℕ) (l : List PNode) :
    y ≤ (RT.processColumns theme area colW y idx l).1 := by
  match l with
  | [] => simp [RT.processColumns]
  | c :: cs =>
    rw [RT.processColumns]
    split
    · have h2 := RT.processColumns_fst_mono_rt theme area colW y (idx + 1) cs
      simp only []
      exact le_trans h2 (le_max_right _ _)
    · exact RT.processColumns_fst_mono_rt theme area colW y idx cs
termination_by sizeOf l
decreasing_by
  all_goals simp

end

/-- **C10**: cursor monotonicity — in both engines, `processNode` returns a
cursor greater than or equal to the input cursor for every node, area,
theme, and input cursor: layout only ever flows downward. -/
theorem C10_cursor_monotone :
    (∀ (theme : Theme) (area : ContentArea) (y : ℚ) (n : PNode),
      y ≤ (P1.processNode theme area y n).1)
    ∧ (∀ (theme : Theme) (area : ContentArea) (y : ℚ) (n : PNode),
      y ≤ (RT.processNode theme area y n).1) :=
  ⟨fun theme area y n => P1.processNode_fst_mono theme area y n,
    fun theme area y n => RT.processNode_fst_mono_rt theme area y n⟩

mutual

theorem P1.processNode_fst_xIndep (theme : Theme) (a b : ContentArea) (hw : b.w = a.w)
    (y : ℚ) (n : PNode) :
    (P1.processNode theme b y n).1 = (P1.processNode theme a y n).1 := by
  by_cases hg : ((P1.getRichTextFromNode n (P1.getTextNodeStyle n theme)).any
      fun t => !(jsTrim t.text == "")) = false
  · simp [P1.processNode, hg]
  · by_cases h1 : n.ty = "h1" ∨ n.ty = "h2" ∨ n.ty = "h3" ∨ n.ty = "h4" ∨ n.ty = "p"
    · simp [P1.processNode, hg, h1]
    · by_cases h2 : n.ty = "img"
      · by_cases h3 : strTruthy n.url = true
        · simp [P1.processNode, hg, h1, h2, h3]
        · simp [P1.processNode, hg, h1, h2, h3]
      · by_cases h4 : n.ty = "column"
        · by_cases h5 : ((n.children.filter fun c => c.ty = "column_item")).length = 0
          · simp [P1.processNode, hg, h1, h2, h4, h5]
          · have ih := P1.processColumns_fst_xIndep theme a b hw
              ((a.w - ((((n.children.filter fun c => c.ty = "column_item")).length : ℚ) - 1) * (1 / 5))
                / (((n.children.filter fun c => c.ty = "column_item")).length : ℚ)) y 0 0 n.children
            simp [P1.processNode, hg, h1, h2, h4, h5, hw]
            linarith [ih]
        · by_cases h6 : n.ty = "bullets"
          · have ih := P1.processSeq_fst_xIndep theme a b hw y n.children
            simp [P1.processNode, hg, h1, h2, h4, h6, ih]
          · by_cases h7 : n.ty = "bullet"
            · simp [P1.processNode, hg, h1, h2, h4, h6, h7]
            · simp [P1.processNode, hg, h1, h2, h4, h6, h7]
termination_by sizeOf n
decreasing_by
  all_goals exact PNode.sizeOf_children_lt n

theorem P1.processSeq_fst_xIndep (theme : Theme) (a b : ContentArea) (hw : b.w = a.w)
    (y : ℚ) (l : List PNode) :
    (P1.processSeq theme b y l).1 = (P1.processSeq theme a y l).1 := by
  match l with
  | [] => simp [P1.processSeq]
  | c :: cs =>
    conv_lhs => rw [P1.processSeq]
    conv_rhs => rw [P1.processSeq]
    rw [P1.processNode_fst_xIndep theme a b hw y c]
    exact P1.processSeq_fst_xIndep theme a b hw (P1.processNode theme a y c).1 cs
termination_by sizeOf l
decreasing_by
  all_goals simp
  all_goals omega

theorem P1.processColumns_fst_xIndep (theme : Theme) (a b : ContentArea) (hw : b.w = a.w)
    (colW y : ℚ) (idxb idxa : ℕ) (l : List PNode) :
    (P1.processColumns theme b colW y idxb l).1
      = (P1.processColumns theme a colW y idxa l).1 := by
  match l with
  | [] => simp [P1.processColumns]
  | c :: cs =>
    conv_lhs => rw [P1.processColumns]
    conv_rhs => rw [P1.processColumns]
    by_cases hc : c.ty = "column_item"
    · simp only [if_pos hc]
      have h1 := P1.processSeq_fst_xIndep theme
        { a with x := a.x + (idxa : ℚ) * (colW + 1 / 5), w := colW }
        { b with x := b.x + (idxb : ℚ) * (colW + 1 / 5), w := colW }
        rfl y c.children
      have h2 := P1.processColumns_fst_xIndep theme a b hw colW y (idxb + 1) (idxa + 1) cs
      rw [h1, h2]
    · simp only [if_neg hc]
      exact P1.processColumns_fst_xIndep theme a b hw colW y idxb idxa cs
termination_by sizeOf l
decreasing_by
  all_goals first
    | exact PNode.sizeOf_children_lt_cons c cs
    | simp

end

theorem foldl_max_init (l : List ℚ) : ∀ (a b : ℚ), l.foldl max (max a b) = max (l.foldl max a) b := by
  induction l with
  | nil =>
    intro a b
    rfl
  | cons x xs ih =>
    intro a b
    simp only [List.foldl_cons]
    rw [sup_right_comm a b x, ih]

theorem foldl_max_perm {l1 l2 : List ℚ} (h : l1.Perm l2) : ∀ b, l1.foldl max b = l2.foldl max b := by
  induction h with
  | nil =>
    intro b
    rfl
  | cons x _ ih =>
    intro b
    simp only [List.foldl_cons]
    exact ih _
  | swap x y l =>
    intro b
    simp only [List.foldl_cons]
    rw [sup_right_comm]
  | trans _ _ ih1 ih2 =>
    intro b
    rw [ih1, ih2]

theorem P1.processColumns_fst_max (theme : Theme) (area : ContentArea) (colW y : ℚ) :
    ∀ (l : List PNode) (idx : ℕ),
      (P1.processColumns theme area colW y idx l).1
        = ((l.filter fun c => c.ty = "column_item").map
            (fun c => (P1.processSeq theme ⟨0, area.y, colW, area.h⟩ y c.children).1)).foldl max y := by
  intro l
  induction l with
  | nil =>
    intro idx
    simp [P1.processColumns]
  | cons c cs ih =>
    intro idx
    conv_lhs => rw [P1.processColumns]
    by_cases hc : c.ty = "column_item"
    · simp only [if_pos hc]
      rw [List.filter_cons_of_pos (by simp [hc])]
      simp only [List.map_cons, List.foldl_cons]
      have hx := P1.processSeq_fst_xIndep theme ⟨0, area.y, colW, area.h⟩
        { area with x := area.x + (idx : ℚ) * (colW + 1 / 5), w := colW } rfl y c.children
      rw [hx, ih (idx + 1), foldl_max_init]
      exact max_comm _ _
    · simp only [if_neg hc]
      rw [List.filter_cons_of_neg (by simp [hc])]
      exact ih idx

theorem P1.guard_passes (theme : Theme) (n : PNode) (hnb : hasNonBlankRun n.children = true) :
    ¬ ((P1.getRichTextFromNode n (P1.getTextNodeStyle n theme)).any
      fun t => !(jsTrim t.text == "")) = false := by
  intro hcon
  have hfalse := (P1.rich_guard_iff (P1.getTextNodeStyle n theme) n.children).1 hcon
  rw [hnb] at hfalse
  simp at hfalse

theorem P1.column_fst_formula (theme : Theme) (area : ContentArea) (y : ℚ) (n : PNode)
    (hty : n.ty = "column") (hnb : hasNonBlankRun n.children = true)
    (hk : 0 < ((n.children.filter fun c => c.ty = "column_item")).length) :
    (P1.processNode theme area y n).1
      = (((n.children.filter fun c => c.ty = "column_item")).map
          (fun c => (P1.processSeq theme
            ⟨0, area.y,
              (area.w - ((((n.children.filter fun c => c.ty = "column_item")).length : ℚ) - 1) * (1 / 5))
                / (((n.children.filter fun c => c.ty = "column_item")).length : ℚ),
              area.h⟩ y c.children).1)).foldl max y + 1 / 5 := by
  have hg := P1.guard_passes theme n hnb
  have hk0 : ¬ ((n.children.filter fun c => c.ty = "column_item")).length = 0 := by omega
  have c1 : ¬ (n.ty = "h1" ∨ n.ty = "h2" ∨ n.ty = "h3" ∨ n.ty = "h4" ∨ n.ty = "p") := by
    simp [hty]
  have c2 : ¬ n.ty = "img" := by simp [hty]
  simp only [P1.processNode]
  rw [if_neg hg, if_neg c1, if_neg c2, if_pos hty, if_neg hk0,
    P1.processColumns_fst_max theme area _ y n.children 0]

/-- **C1 (amended)**: for every multi-column node that passes the engine's
non-blank rich-text guard and has at least one `column_item` child, the
part_001 engine partitions the area into equal-width sub-areas of width
`(w − (k−1)·0.2)/k`, lays out each column with an independent cursor
starting at the parent cursor (the cursor is independent of the column's
x-offset), and returns the running maximum of the column cursors plus the
`0.2` gap; and under the same guard the returned cursor is invariant under
permutation of the columns. -/
theorem C1_column_layout :
    (∀ (theme : Theme) (area : ContentArea) (y : ℚ) (n : PNode),
      n.ty = "column" → hasNonBlankRun n.children = true →
      0 < ((n.children.filter fun c => c.ty = "column_item")).length →
      (P1.processNode theme area y n).1
        = (((n.children.filter fun c => c.ty = "column_item")).map
            (fun c => (P1.processSeq theme
              ⟨0, area.y,
                (area.w - ((((n.children.filter fun c => c.ty = "column_item")).length : ℚ) - 1) * (1 / 5))
                  / (((n.children.filter fun c => c.ty = "column_item")).length : ℚ),
                area.h⟩ y c.children).1)).foldl max y + 1 / 5)
    ∧ (∀ (theme : Theme) (area : ContentArea) (y : ℚ) (n n' : PNode),
      n.ty = "column" → n'.ty = "column" →
      hasNonBlankRun n.children = true → hasNonBlankRun n'.children = true →
      0 < ((n.children.filter fun c => c.ty = "column_item")).length →
      ((n.children.filter fun c => c.ty = "column_item")).Perm
        ((n'.children.filter fun c => c.ty = "column_item")) →
      (P1.processNode theme area y n).1 = (P1.processNode theme area y n').1) := by
  constructor
  · intro theme area y n hty hnb hk
    exact P1.column_fst_formula theme area y n hty hnb hk
  · intro theme area y n n' hty hty' hnb hnb' hk hperm
    have hk' : 0 < ((n'.children.filter fun c => c.ty = "column_item")).length := by
      rw [← hperm.length_eq]
      exact hk
    rw [P1.column_fst_formula theme area y n hty hnb hk,
      P1.column_fst_formula theme area y n' hty' hnb' hk']
    rw [hperm.length_eq]
    exact congrArg (· + 1 / 5) (foldl_max_perm (hperm.map _) y)

/-- Two concrete columns with swapped contents. -/
def colItemA : PNode := elt "column_item" [elt "p" [leaf "Alpha"]]

def colItemB : PNode := elt "column_item" [elt "h2" [leaf "Beta", leaf "Gamma"]]

def colSample : PNode := elt "column" [colItemA, colItemB]

def colSampleSwapped : PNode := elt "column" [colItemB, colItemA]

/-- Witness for C1 at concrete two-column nodes: the formula instance and
the permutation invariance under swapping the two columns. -/
theorem C1_column_layout_witness :
    ((P1.processNode sampleTheme P1.defaultContentArea 1 colSample).1
      = (((colSample.children.filter fun c => c.ty = "column_item")).map
          (fun c => (P1.processSeq sampleTheme
            ⟨0, P1.defaultContentArea.y,
              (P1.defaultContentArea.w
                  - ((((colSample.children.filter fun c => c.ty = "column_item")).length : ℚ) - 1) * (1 / 5))
                / (((colSample.children.filter fun c => c.ty = "column_item")).length : ℚ),
              P1.defaultContentArea.h⟩ 1 c.children).1)).foldl max 1 + 1 / 5)
    ∧ (P1.processNode sampleTheme P1.defaultContentArea 1 colSample).1
      = (P1.processNode sampleTheme P1.defaultContentArea 1 colSampleSwapped).1 :=
  ⟨C1_column_layout.1 sampleTheme P1.defaultContentArea 1 colSample rfl (by decide) (by decide),
    C1_column_layout.2 sampleTheme P1.defaultContentArea 1 colSample colSampleSwapped
      rfl rfl (by decide) (by decide) (by decide)
      (by
        have h1 : (colSample.children.filter fun c => c.ty = "column_item")
            = [colItemA, colItemB] := rfl
        have h2 : (colSampleSwapped.children.filter fun c => c.ty = "column_item")
            = [colItemB, colItemA] := rfl
        rw [h1, h2]
        exact List.Perm.swap colItemB colItemA [])⟩

/-- A column node whose single column contains only whitespace text. -/
def blankColumn : PNode := elt "column" [elt "column_item" [elt "p" [leaf " "]]]

/-- **C1 counterexample**: a multi-column node whose columns hold only
whitespace text falls into the part_001 engine's early rich-text guard: the
engine returns the cursor unchanged (`1`) and emits nothing, while the
claimed result `max(per-column final cursor) + gap` is `1 + 0.2` (each
column's independent cursor stays at `1`), so the claim as stated fails. -/
theorem C1_blank_column_counterexample :
    P1.processNode sampleTheme P1.defaultContentArea 1 blankColumn = (1, [])
    ∧ (P1.processSeq sampleTheme ⟨0, 1 / 2, 9, 37 / 8⟩ 1 [elt "p" [leaf " "]]).1 = 1
    ∧ (1 : ℚ) ≠ 1 + 1 / 5 := by
  refine ⟨P1.processNode_blank _ _ _ _ (by decide), ?_, by norm_num⟩
  have hp : ∀ a : ContentArea, P1.processNode sampleTheme a 1 (elt "p" [leaf " "]) = (1, []) :=
    fun a => P1.processNode_blank _ _ _ _ (by decide)
  simp [P1.processSeq, hp]

theorem P1.hasNonBlank_of_guard (theme : Theme) (n : PNode)
    (h : ¬ ((P1.getRichTextFromNode n (P1.getTextNodeStyle n theme)).any
      fun t => !(jsTrim t.text == "")) = false) :
    hasNonBlankRun n.children = true := by
  rcases Bool.eq_false_or_eq_true (hasNonBlankRun n.children) with ht | hf
  · exact ht
  · exact absurd ((P1.rich_guard_iff _ _).2 hf) h

theorem countCols_eq_zero (l : List PNode)
    (h : (l.filter fun c => c.ty = "column_item").length = 0) : countCols l = 0 := by
  induction l with
  | nil => simp [countCols]
  | cons c cs ih =>
    by_cases hc : c.ty = "column_item"
    · rw [List.filter_cons_of_pos (by simp [hc])] at h
      simp at h
    · rw [List.filter_cons_of_neg (by simp [hc])] at h
      rw [countCols, if_neg hc]
      simp [ih h]

mutual

theorem P1.processNode_text_count (theme : Theme) (area : ContentArea) (y : ℚ) (n : PNode) :
    ((P1.processNode theme area y n).2.countP fun c => isTextCmd c) = countTextBlocks n := by
  by_cases hg : ((P1.getRichTextFromNode n (P1.getTextNodeStyle n theme)).any
      fun t => !(jsTrim t.text == "")) = false
  · have h0 : hasNonBlankRun n.children = false := (P1.rich_guard_iff _ _).1 hg
    simp [P1.processNode, hg, countTextBlocks, h0]
  · have h1 : hasNonBlankRun n.children = true := P1.hasNonBlank_of_guard theme n hg
    by_cases t1 : n.ty = "h1" ∨ n.ty = "h2" ∨ n.ty = "h3" ∨ n.ty = "h4" ∨ n.ty = "p"
    · rcases t1 with t | t | t | t | t <;>
        simp [P1.processNode, hg, t, h1, countTextBlocks, isTextCmd]
    · by_cases t2 : n.ty = "img"
      · by_cases t3 : strTruthy n.url = true
        · simp [P1.processNode, hg, t1, t2, t3, h1, countTextBlocks, isTextCmd]
        · simp [P1.processNode, hg, t1, t2, t3, h1, countTextBlocks, isTextCmd]
      · by_cases t4 : n.ty = "column"
        · by_cases t5 : ((n.children.filter fun c => c.ty = "column_item")).length = 0
          · have hcc := countCols_eq_zero n.children t5
            simp [P1.processNode, hg, t1, t2, t4, t5, h1, countTextBlocks, hcc]
          · have ihc := P1.processColumns_text_count theme area
              ((area.w - ((((n.children.filter fun c => c.ty = "column_item")).length : ℚ) - 1) * (1 / 5))
                / (((n.children.filter fun c => c.ty = "column_item")).length : ℚ)) y 0 n.children
            simp [P1.processNode, hg, t1, t2, t4, t5, h1, countTextBlocks, -one_div, ihc]
        · by_cases t6 : n.ty = "bullets"
          · have ihs := P1.processSeq_text_count theme area y n.children
            simp [P1.processNode, hg, t1, t2, t4, t6, h1, countTextBlocks, ihs]
          · by_cases t7 : n.ty = "bullet"
            · simp [P1.processNode, hg, t1, t2, t4, t6, t7, h1, countTextBlocks, isTextCmd]
            · simp only [not_or] at t1
              obtain ⟨e1, e2, e3, e4, e5⟩ := t1
              simp [P1.processNode, hg, e1, e2, e3, e4, e5, t2, t4, t6, t7, h1, countTextBlocks]
termination_by sizeOf n
decreasing_by
  all_goals exact PNode.sizeOf_children_lt n

theorem P1.processSeq_text_count (theme : Theme) (area : ContentArea) (y : ℚ) (l : List PNode) :
    ((P1.processSeq theme area y l).2.countP fun c => isTextCmd c) = countSeqBlocks l := by
  match l with
  | [] => simp [P1.processSeq, countSeqBlocks]
  | c :: cs =>
    conv_lhs => rw [P1.processSeq]
    rw [countSeqBlocks]
    have h1 := P1.processNode_text_count theme area y c
    have h2 := P1.processSeq_text_count theme area (P1.processNode theme area y c).1 cs
    simp [List.countP_append, h1, h2]
termination_by sizeOf l
decreasing_by
  all_goals simp
  all_goals omega

theorem P1.processColumns_text_count (theme : Theme) (area : ContentArea) (colW y : ℚ)
    (idx : ℕ) (l : List PNode) :
    ((P1.processColumns theme area colW y idx l).2.countP fun c => isTextCmd c) = countCols l := by
  match l with
  | [] => simp [P1.processColumns, countCols]
  | c :: cs =>
    conv_lhs => rw [P1.processColumns]
    rw [countCols]
    by_cases hc : c.ty = "column_item"
    · have h1 := P1.processSeq_text_count theme
        { area with x := area.x + (idx : ℚ) * (colW + 1 / 5), w := colW } y c.children
      have h2 := P1.processColumns_text_count theme area colW y (idx + 1) cs
      simp [hc, List.countP_append, -one_div, h1, h2]
    · have h2 := P1.processColumns_text_count theme area colW y idx cs
      simp [hc, h2]
termination_by sizeOf l
decreasing_by
  all_goals first
    | exact PNode.sizeOf_children_lt_cons c cs
    | simp

end

/-- **C6 (amended)**: for every ContentNode tree, the part_001 engine emits
exactly one text-bearing drawing command per text-bearing block node
(h1–h4, p, bullet) that passes the non-blank guard, as counted along the
engine's traversal (`countTextBlocks`); container nodes (column, bullets)
and image nodes themselves contribute zero text commands.  The leaf count
matches only when every such block holds exactly one non-blank leaf. -/
theorem C6_text_commands_per_block :
    ∀ (theme : Theme) (area : ContentArea) (y : ℚ) (n : PNode),
      ((P1.processNode theme area y n).2.countP fun c => isTextCmd c) = countTextBlocks n :=
  fun theme area y n => P1.processNode_text_count theme area y n

/-- **C6 counterexample**: a paragraph with two non-blank leaves ("a" and
"b") produces one text-bearing drawing command, not two — the claimed
one-command-per-leaf correspondence fails as soon as a block holds more
than one leaf. -/
theorem C6_leaf_count_counterexample :
    ((P1.processNode sampleTheme P1.defaultContentArea 0 (elt "p" [leaf "a", leaf "b"])).2.countP
      fun c => isTextCmd c) = 1
    ∧ countNonBlankLeaves (elt "p" [leaf "a", leaf "b"]) = 2
    ∧ (1 : ℕ) ≠ 2 := by
  refine ⟨?_, by decide, by decide⟩
  have hnb : hasNonBlankRun [leaf "a", leaf "b"] = true := by decide
  rw [P1.processNode_text_count, countTextBlocks]
  simp [elt, PNode.children, PNode.ty, hnb]

/-- The box height of a text-bearing drawing command. -/
def textBoxHeight : DrawCmd → Option Coord
  | .text _ box _ => some box.h
  | .textStr _ box => some box.h
  | _ => none

theorem P1.text_height_formula (theme : Theme) (area : ContentArea) (y : ℚ) (n : PNode)
    (hty : n.ty = "h1" ∨ n.ty = "h2" ∨ n.ty = "h3" ∨ n.ty = "h4" ∨ n.ty = "p" ∨ n.ty = "bullet")
    (hnb : hasNonBlankRun n.children = true) :
    ∃ h : ℚ,
      h = max ((((String.join ((P1.getRichTextFromNode n (P1.getTextNodeStyle n theme)).map
            (fun r => r.text))).data.count '\n' + 1 : ℕ) : ℚ)
          * ((P1.getTextNodeStyle n theme).fontSize.getD 16) * (3 / 2) / 72) (1 / 2)
      ∧ (P1.processNode theme area y n).2.filterMap textBoxHeight = [Coord.num h]
      ∧ (P1.processNode theme area y n).1
          = y + h + (if n.ty = "bullet" then 1 / 20 else 1 / 10)
      ∧ 1 / 2 ≤ h ∧ 0 < h := by
  have hg := P1.guard_passes theme n hnb
  refine ⟨_, rfl, ?_, ?_, le_max_right _ _,
    lt_of_lt_of_le (by norm_num) (le_max_right _ ((1 : ℚ) / 2))⟩ <;>
    rcases hty with t | t | t | t | t | t <;>
    simp [P1.processNode, hg, t, textBoxHeight]

theorem RT.fontSize_pos (n : PNode) (theme : Theme) :
    0 < (RT.getTextNodeStyle n theme).fontSize.getD 14 := by
  simp only [RT.getTextNodeStyle]
  repeat' split
  all_goals norm_num

theorem RT.text_height_formula_rt (theme : Theme) (area : ContentArea) (y : ℚ) (n : PNode)
    (hty : n.ty = "h1" ∨ n.ty = "h2" ∨ n.ty = "h3" ∨ n.ty = "h4" ∨ n.ty = "h5" ∨ n.ty = "h6"
      ∨ n.ty = "p" ∨ n.ty = "bullet")
    (hguard : ((RT.getRichTextFromNode n).all fun t => jsTrim t.text == "") = false) :
    ∃ th : ℚ,
      th = ((RT.getTextNodeStyle n theme).fontSize.getD 14) / 72 * (3 / 2)
          * ((RT.getRichTextFromNode n).length : ℚ)
      ∧ (RT.processNode theme area y n).2.filterMap textBoxHeight = [Coord.num th]
      ∧ (RT.processNode theme area y n).1 = y + th + 1 / 10
      ∧ 0 < th := by
  have hlen : 0 < ((RT.getRichTextFromNode n).length : ℚ) := by
    have hne : RT.getRichTextFromNode n ≠ [] := by
      intro hnil
      rw [hnil] at hguard
      simp at hguard
    exact_mod_cast List.length_pos.mpr hne
  have hfs := RT.fontSize_pos n theme
  have hpos : 0 < ((RT.getTextNodeStyle n theme).fontSize.getD 14) / 72 * (3 / 2)
      * ((RT.getRichTextFromNode n).length : ℚ) := by
    apply mul_pos (mul_pos (div_pos hfs (by norm_num)) (by norm_num)) hlen
  refine ⟨_, rfl, ?_, ?_, hpos⟩ <;>
    rcases hty with t | t | t | t | t | t | t | t <;>
    simp [RT.processNode, RT.addTextElement, hguard, t, textBoxHeight]

/-- **C7 (amended)**: in the part_001 engine a text-bearing node that emits
a text box consumes exactly
`max((hard line breaks + 1) · fontSize · 1.5 / 72, 0.5)` — the claim's
formula, floored at the positive minimum `0.5`, never zero — and advances
the cursor by that height plus the gap; in the route.ts engine the emitted
height is instead `fontSize / 72 · 1.5 · (number of extracted runs)`, with
no fixed minimum (it is positive whenever a box is emitted because every
resolved font size is positive). -/
theorem C7_text_height_estimate :
    (∀ (theme : Theme) (area : ContentArea) (y : ℚ) (n : PNode),
      (n.ty = "h1" ∨ n.ty = "h2" ∨ n.ty = "h3" ∨ n.ty = "h4" ∨ n.ty = "p" ∨ n.ty = "bullet") →
      hasNonBlankRun n.children = true →
      ∃ h : ℚ,
        h = max ((((String.join ((P1.getRichTextFromNode n (P1.getTextNodeStyle n theme)).map
              (fun r => r.text))).data.count '\n' + 1 : ℕ) : ℚ)
            * ((P1.getTextNodeStyle n theme).fontSize.getD 16) * (3 / 2) / 72) (1 / 2)
        ∧ (P1.processNode theme area y n).2.filterMap textBoxHeight = [Coord.num h]
        ∧ (P1.processNode theme area y n).1
            = y + h + (if n.ty = "bullet" then 1 / 20 else 1 / 10)
        ∧ 1 / 2 ≤ h ∧ 0 < h)
    ∧ (∀ (theme : Theme) (area : ContentArea) (y : ℚ) (n : PNode),
      (n.ty = "h1" ∨ n.ty = "h2" ∨ n.ty = "h3" ∨ n.ty = "h4" ∨ n.ty = "h5" ∨ n.ty = "h6"
        ∨ n.ty = "p" ∨ n.ty = "bullet") →
      ((RT.getRichTextFromNode n).all fun t => jsTrim t.text == "") = false →
      ∃ th : ℚ,
        th = ((RT.getTextNodeStyle n theme).fontSize.getD 14) / 72 * (3 / 2)
            * ((RT.getRichTextFromNode n).length : ℚ)
        ∧ (RT.processNode theme area y n).2.filterMap textBoxHeight = [Coord.num th]
        ∧ (RT.processNode theme area y n).1 = y + th + 1 / 10
        ∧ 0 < th) :=
  ⟨fun theme area y n hty hnb => P1.text_height_formula theme area y n hty hnb,
    fun theme area y n hty hguard => RT.text_height_formula_rt theme area y n hty hguard⟩

theorem RT.richText_pair_eval : RT.getRichTextFromNode (elt "p" [leaf "a", leaf "b"])
    = [⟨"a", updateFlags {} (leaf "a")⟩, ⟨"b", updateFlags {} (leaf "b")⟩] := by
  simp [RT.getRichTextFromNode, RT.traverse, elt, leaf, PNode.text, PNode.children, strTruthy]

theorem RT.richText_single_eval : RT.getRichTextFromNode (elt "p" [leaf "ab"])
    = [⟨"ab", updateFlags {} (leaf "ab")⟩] := by
  simp [RT.getRichTextFromNode, RT.traverse, elt, leaf, PNode.text, PNode.children, strTruthy]

/-- Witness for C7: the part_001 conjunct at a concrete `h1` node (two
short runs, no line break, so `h = max(36·1.5/72, 0.5) = 0.75`) and the
route conjunct at a concrete two-run paragraph. -/
theorem C7_text_height_estimate_witness :
    (∃ h : ℚ,
      h = max ((((String.join ((P1.getRichTextFromNode (elt "h1" [leaf "Hi", leaf "Yo"])
            (P1.getTextNodeStyle (elt "h1" [leaf "Hi", leaf "Yo"]) sampleTheme)).map
            (fun r => r.text))).data.count '\n' + 1 : ℕ) : ℚ)
          * ((P1.getTextNodeStyle (elt "h1" [leaf "Hi", leaf "Yo"]) sampleTheme).fontSize.getD 16)
          * (3 / 2) / 72) (1 / 2)
      ∧ (P1.processNode sampleTheme P1.defaultContentArea 1
          (elt "h1" [leaf "Hi", leaf "Yo"])).2.filterMap textBoxHeight = [Coord.num h]
      ∧ (P1.processNode sampleTheme P1.defaultContentArea 1 (elt "h1" [leaf "Hi", leaf "Yo"])).1
          = 1 + h + (if (elt "h1" [leaf "Hi", leaf "Yo"]).ty = "bullet" then 1 / 20 else 1 / 10)
      ∧ 1 / 2 ≤ h ∧ 0 < h)
    ∧ (∃ th : ℚ,
      th = ((RT.getTextNodeStyle (elt "p" [leaf "a", leaf "b"]) sampleTheme).fontSize.getD 14)
          / 72 * (3 / 2) * ((RT.getRichTextFromNode (elt "p" [leaf "a", leaf "b"])).length : ℚ)
      ∧ (RT.processNode sampleTheme P1.defaultContentArea 1
          (elt "p" [leaf "a", leaf "b"])).2.filterMap textBoxHeight = [Coord.num th]
      ∧ (RT.processNode sampleTheme P1.defaultContentArea 1 (elt "p" [leaf "a", leaf "b"])).1
          = 1 + th + 1 / 10
      ∧ 0 < th) :=
  ⟨C7_text_height_estimate.1 sampleTheme P1.defaultContentArea 1 (elt "h1" [leaf "Hi", leaf "Yo"])
      (Or.inl rfl) (by decide),
    C7_text_height_estimate.2 sampleTheme P1.defaultContentArea 1 (elt "p" [leaf "a", leaf "b"])
      (by simp [elt, PNode.ty])
      (by
        rw [RT.richText_pair_eval]
        decide)⟩

/-- **C7 counterexample**: in the route.ts engine, two paragraphs with the
same concatenated text (hence the same hard-line-break count) and the same
resolved style consume different heights (`7/24` vs `7/12`, scaling with
the number of extracted runs), so the claimed height formula — a function
of the break count and the font size, floored at a fixed minimum — does not
describe this engine. -/
theorem C7_runcount_height_counterexample :
    (RT.processNode sampleTheme P1.defaultContentArea 0 (elt "p" [leaf "ab"])).1 = 7 / 24 + 1 / 10
    ∧ (RT.processNode sampleTheme P1.defaultContentArea 0 (elt "p" [leaf "a", leaf "b"])).1
      = 7 / 12 + 1 / 10
    ∧ String.join ((RT.getRichTextFromNode (elt "p" [leaf "ab"])).map fun r => r.text)
      = String.join ((RT.getRichTextFromNode (elt "p" [leaf "a", leaf "b"])).map fun r => r.text)
    ∧ RT.getTextNodeStyle (elt "p" [leaf "ab"]) sampleTheme
      = RT.getTextNodeStyle (elt "p" [leaf "a", leaf "b"]) sampleTheme
    ∧ (7 : ℚ) / 24 + 1 / 10 ≠ 7 / 12 + 1 / 10 := by
  have hty1 : (elt "p" [leaf "ab"]).ty = "p" := rfl
  have hty2 : (elt "p" [leaf "a", leaf "b"]).ty = "p" := rfl
  have g1 : ¬ ∀ x ∈ RT.getRichTextFromNode (elt "p" [leaf "ab"]), jsTrim x.text = "" := by
    rw [RT.richText_single_eval]
    decide
  have g2 : ¬ ∀ x ∈ RT.getRichTextFromNode (elt "p" [leaf "a", leaf "b"]),
      jsTrim x.text = "" := by
    rw [RT.richText_pair_eval]
    decide
  refine ⟨?_, ?_, ?_, rfl, by norm_num⟩
  · simp [RT.processNode, RT.addTextElement, hty1, g1, RT.richText_single_eval,
      RT.getTextNodeStyle]
    rw [if_neg (by decide : ¬ jsTrim "ab" = "")]
    norm_num
  · simp [RT.processNode, RT.addTextElement, hty2, g2, RT.richText_pair_eval,
      RT.getTextNodeStyle]
    rw [if_neg (by decide : ¬ (jsTrim "a" = "" ∧ jsTrim "b" = ""))]
    norm_num
  · rw [RT.richText_single_eval, RT.richText_pair_eval]
    decide
